import Mathlib

/- Shallow embedding of disco.py (distributedlock peer discovery engine).

The Python module implements a DISCO/REPLY/END peer-discovery protocol:
a PeerList (an observable set of peer identity strings with change
callbacks), a Disco engine holding the protocol state (identity, flags,
bounded outbound queue), and a poll loop consuming buffered inbound
messages. Pure protocol logic is translated here as explicit state
passing; the raising of UnknownActionError is an Except error. -/

deriving instance DecidableEq for Except

/- Python substring membership: needle in haystack (str.__contains__). -/

def leadsWith : List Char → List Char → Bool
  | [], _ => true
  | _ :: _, [] => false
  | a :: as, b :: bs => a == b && leadsWith as bs

def hasSub : List Char → List Char → Bool
  | n, [] => leadsWith n []
  | n, b :: bs => leadsWith n (b :: bs) || hasSub n bs

def pyIn (needle haystack : String) : Bool :=
  hasSub needle.toList haystack.toList

/- Python str.lower(), mapped over the character list. -/
def pyLower (s : String) : String :=
  String.mk (s.toList.map Char.toLower)

/- A decoded wire message: json.loads of the message content, a dict with
fields action, source and (for REPLY) reply. -/

structure Msg where
  action : String
  source : String
  reply : String
deriving DecidableEq, Repr

/- PeerList (disco.py lines 87-141). The Python object mutates a set in
place, hands deep copies of the old state but the live set itself
(get_state returns self._state) to callbacks. To make aliasing
observable we model the Python heap of set objects explicitly: index 0
is the live self._state object, copy.deepcopy allocates a fresh index.
Callbacks are identified by Nat ids; invoking them is modelled by a log
of (callback id, old-state ref, new-state ref) records, one per
callback per _notify call, in registration order. -/

structure PeerList where
  heap : List (Finset String)
  _length : Nat
  _callbacks : List Nat
  log : List (Nat × Nat × Nat)
deriving DecidableEq

def PeerList.init : PeerList := ⟨[∅], 0, [], []⟩

/- Dereference an object id in a PeerList heap. -/
def deref (pl : PeerList) (r : Nat) : Finset String :=
  pl.heap.getD r ∅

/- PeerList.add_peer: old_state = copy.deepcopy(self._state) (fresh
object), self._state.add(peer) (in-place on object 0), _length =
len(_state), _notify(old_state, self.get_state()) where get_state
returns self._state, i.e. object 0. -/
def addPeer (peer : String) (pl : PeerList) : PeerList :=
  let cur := deref pl 0
  let oldRef := pl.heap.length
  { heap := (pl.heap ++ [cur]).set 0 (insert peer cur),
    _length := (insert peer cur).card,
    _callbacks := pl._callbacks,
    log := pl.log ++ pl._callbacks.map (fun cb => (cb, oldRef, 0)) }

/- PeerList.remove_peer: same shape with self._state.discard(peer). -/
def removePeer (peer : String) (pl : PeerList) : PeerList :=
  let cur := deref pl 0
  let oldRef := pl.heap.length
  { heap := (pl.heap ++ [cur]).set 0 (cur.erase peer),
    _length := (cur.erase peer).card,
    _callbacks := pl._callbacks,
    log := pl.log ++ pl._callbacks.map (fun cb => (cb, oldRef, 0)) }

/- PeerList.register_callback: append to the callback list. -/
def registerCallback (cb : Nat) (pl : PeerList) : PeerList :=
  { pl with _callbacks := pl._callbacks ++ [cb] }

/- One call against a PeerList, for quantifying over call sequences. -/
inductive PLOp where
  | add (p : String)
  | remove (p : String)
  | register (cb : Nat)
deriving DecidableEq

def applyOp : PLOp → PeerList → PeerList
  | PLOp.add p, pl => addPeer p pl
  | PLOp.remove p, pl => removePeer p pl
  | PLOp.register cb, pl => registerCallback cb pl

def runOps : List PLOp → PeerList → PeerList
  | [], pl => pl
  | op :: ops, pl => runOps ops (applyOp op pl)

def reachedPL (ops : List PLOp) : PeerList :=
  runOps ops PeerList.init

lemma deref_addPeer_zero (p : String) (pl : PeerList) :
    deref (addPeer p pl) 0 = insert p (deref pl 0) := by
  rcases pl with ⟨heap, len, cbs, log⟩
  cases heap with
  | nil => simp [addPeer, deref]
  | cons h t => simp [addPeer, deref]

lemma deref_removePeer_zero (p : String) (pl : PeerList) :
    deref (removePeer p pl) 0 = (deref pl 0).erase p := by
  rcases pl with ⟨heap, len, cbs, log⟩
  cases heap with
  | nil => simp [removePeer, deref]
  | cons h t => simp [removePeer, deref]

lemma addPeer_length (p : String) (pl : PeerList) :
    (addPeer p pl)._length = (insert p (deref pl 0)).card := rfl

lemma removePeer_length (p : String) (pl : PeerList) :
    (removePeer p pl)._length = ((deref pl 0).erase p).card := rfl

lemma addPeer_callbacks (p : String) (pl : PeerList) :
    (addPeer p pl)._callbacks = pl._callbacks := rfl

lemma registerCallback_heap (cb : Nat) (pl : PeerList) :
    (registerCallback cb pl).heap = pl.heap := rfl

/- Module constants (disco.py lines 41-49). MIN_PEERS is the quorum
threshold: discovery runs until we hear from at least this many peers. -/

def BROKER : String := "kafka.scimma.org"

def MIN_PEERS : Nat := 2

/- json.dumps of the three dict shapes built by discovery(), reply()
and end(). Python dicts keep insertion order and dumps uses the
default separators. -/

def discoMsgJson (src : String) : String :=
  "\x7b\"action\": \"DISCO\", \"source\": \"" ++ src ++ "\"\x7d"

def replyMsgJson (ip : String) : String :=
  "\x7b\"action\": \"REPLY\", \"reply\": \"" ++ ip ++ "\", \"source\": \"" ++ ip ++ "\"\x7d"

def endMsgJson (src : String) : String :=
  "\x7b\"action\": \"END\", \"source\": \"" ++ src ++ "\"\x7d"

/- The Disco engine attributes the protocol logic reads and writes
(disco.py __init__ lines 156-200): the local identity self._id (its IP
string), the _in_disco flag, the PeerList, the bounded outbound queue
(maxsize 15, holding serialized messages), the shared shutdown Event
and the _endit flag. quorum_threshold models the attribute the kwargs
loop (for k, val in kwargs.items(): self.__dict__[f"_k"] = val) stores
when a caller passes one; nothing in the protocol code reads it. The
inbound queue contents are passed to the poll functions as explicit
message lists. -/

structure DiscoState where
  me : String
  in_disco : Bool
  peerlist : PeerList
  out_queue : List String
  event : Bool
  endit : Bool
  quorum_threshold : Nat
deriving DecidableEq

/- Disco.whoami: return my ip address. -/
def whoami (s : DiscoState) : String := s.me

/- Disco.get_peerlist: the peer set (value of the live _state object). -/
def get_peerlist (s : DiscoState) : Finset String := deref s.peerlist 0

/- Disco.produce (lines 296-300): put msg in the work queue only when
the shutdown event is not set and the queue is not full (maxsize 15). -/
def produce (s : DiscoState) (msg : String) : DiscoState :=
  if s.event = false ∧ s.out_queue.length < 15 then
    { s with out_queue := s.out_queue ++ [msg] }
  else s

/- Disco.reply (lines 282-289): produce a REPLY carrying my identity. -/
def discoReply (s : DiscoState) : DiscoState :=
  produce s (replyMsgJson s.me)

/- Disco.end (lines 291-294): produce an END message. It does not touch
_endit or the event. -/
def endDisco (s : DiscoState) : DiscoState :=
  produce s (endMsgJson s.me)

/- Disco.shutdown (lines 309-312): set _endit and the shared event. -/
def shutdown (s : DiscoState) : DiscoState :=
  { s with event := true, endit := true }

inductive DiscoErr where
  | unknownAction
deriving DecidableEq

/- The body of the for-loop in Disco.poll (lines 261-280) on a single
consumed message. Returns the new state and whether the loop breaks
(the break after shutdown on an END action). Python membership tests
on the action string are substring tests. -/
def pollMsg (s : DiscoState) (m : Msg) : Except DiscoErr (DiscoState × Bool) :=
  if pyIn "END" m.action then
    Except.ok (shutdown s, true)
  else if s.me == m.source then
    Except.ok (s, false)
  else if pyIn "DISCO" m.action then
    Except.ok (discoReply { s with in_disco := true }, false)
  else if pyIn "REPLY" m.action then
    let s1 := { s with peerlist := addPeer m.reply s.peerlist }
    if MIN_PEERS ≤ s1.peerlist._length then Except.ok (endDisco s1, false)
    else Except.ok (s1, false)
  else
    Except.error DiscoErr.unknownAction

/- for message in self.consume(): consume() drains the inbound queue
one get() at a time, so on break the not-yet-yielded messages remain
buffered; they are returned as the leftover list. An UnknownActionError
propagates out of poll. -/
def pollMsgs (s : DiscoState) : List Msg → Except DiscoErr (DiscoState × List Msg)
  | [] => Except.ok (s, [])
  | m :: rest =>
    match pollMsg s m with
    | Except.error e => Except.error e
    | Except.ok (s1, true) => Except.ok (s1, rest)
    | Except.ok (s1, false) => pollMsgs s1 rest

/- Disco.poll's while-loop (while not self._endit). Each iteration
drains the messages buffered at that point; batches lists, per
iteration, the messages that have arrived on the inbound queue. When
the loop exits, the state and the still-unprocessed batches are
returned. A nonempty leftover only arises from the break after
shutdown, in which case _endit is set and the while-condition ends the
loop with the leftover still buffered. -/
def poll (s : DiscoState) : List (List Msg) → Except DiscoErr (DiscoState × List (List Msg))
  | [] => Except.ok (s, [])
  | b :: rest =>
    if s.endit = true then Except.ok (s, b :: rest)
    else
      match pollMsgs s b with
      | Except.error e => Except.error e
      | Except.ok (s1, []) => poll s1 rest
      | Except.ok (s1, l :: ls) => Except.ok (s1, (l :: ls) :: rest)

/- The engine state right after Disco.__init__: _in_disco False, empty
PeerList, empty queues, event unset, _endit False. q is the
quorum-threshold-like value a caller may have passed through kwargs. -/
def freshDisco (me : String) (q : Nat) : DiscoState :=
  ⟨me, false, PeerList.init, [], false, false, q⟩

/- Projections for stating facts about poll results. -/

def stOf : Except DiscoErr (DiscoState × List Msg) → Option DiscoState
  | Except.ok (s, _) => some s
  | Except.error _ => none

def stOfRun : Except DiscoErr (DiscoState × List (List Msg)) → Option DiscoState
  | Except.ok (s, _) => some s
  | Except.error _ => none

/- Construction-time stream-URI computation (disco.py lines 182-195).
Python truthiness of the optional string attributes: None and the empty
string are falsy. Both arms of each scheme-detection conditional build
the same f-string. A missing (falsy) broker raises
MissingArgumentError. -/

inductive InitErr where
  | missingArgument
deriving DecidableEq

structure InitUris where
  stream_uri_r : Option String
  stream_uri_w : Option String
deriving DecidableEq

def pyTruthy : Option String → Bool
  | none => false
  | some s => !(s == "")

def discoInitUris (broker read_topic write_topic : Option String) :
    Except InitErr InitUris :=
  if pyTruthy broker then
    let b := broker.getD ""
    let ur : Option String :=
      if pyTruthy read_topic then
        if pyIn "kafka://" (pyLower b) then
          some ("kafka://" ++ b ++ "/" ++ read_topic.getD "")
        else
          some ("kafka://" ++ b ++ "/" ++ read_topic.getD "")
      else none
    let uw : Option String :=
      if pyTruthy write_topic then
        if pyIn "kafka" (pyLower b) then
          some ("kafka://" ++ b ++ "/" ++ write_topic.getD "")
        else
          some ("kafka://" ++ b ++ "/" ++ write_topic.getD "")
      else none
    Except.ok ⟨ur, uw⟩
  else
    Except.error InitErr.missingArgument

lemma produce_me (s : DiscoState) (msg : String) : (produce s msg).me = s.me := by
  unfold produce; split <;> rfl

lemma produce_peerlist (s : DiscoState) (msg : String) :
    (produce s msg).peerlist = s.peerlist := by
  unfold produce; split <;> rfl

lemma produce_endit (s : DiscoState) (msg : String) :
    (produce s msg).endit = s.endit := by
  unfold produce; split <;> rfl

lemma produce_event (s : DiscoState) (msg : String) :
    (produce s msg).event = s.event := by
  unfold produce; split <;> rfl

/-- C3: produce(msg) enqueues msg onto the outbound queue if and only if
the shutdown signal is not set and the queue holds fewer than 15
messages; in every other case produce returns with the engine state
(outbound queue included) unchanged — it is a total function, so it
neither raises nor blocks. -/
theorem C3_produce_drop (s : DiscoState) (msg : String) :
    (s.event = false ∧ s.out_queue.length < 15 →
      produce s msg = { s with out_queue := s.out_queue ++ [msg] })
    ∧ (¬(s.event = false ∧ s.out_queue.length < 15) → produce s msg = s) := by
  constructor
  · intro h
    simp only [produce]
    rw [if_pos h]
  · intro h
    simp only [produce]
    rw [if_neg h]

def fullOut : DiscoState :=
  { freshDisco "A" 2 with out_queue := List.replicate 15 "x" }

/-- C3 witness: a fresh engine enqueues; an engine whose outbound queue
already holds 15 messages drops the message and is unchanged. -/
theorem C3_witness :
    produce (freshDisco "A" 2) "m" =
      { freshDisco "A" 2 with out_queue := (freshDisco "A" 2).out_queue ++ ["m"] }
    ∧ produce fullOut "m" = fullOut :=
  ⟨(C3_produce_drop (freshDisco "A" 2) "m").1 (by decide),
   (C3_produce_drop fullOut "m").2 (by decide)⟩

/-- C5: shutdown is idempotent. Processing an END message in a state
whose end flag and shutdown event are already set returns normally
(no error), breaks the drain, and leaves the whole state — PeerList
included — exactly as it was; and shutdown composed with shutdown
equals shutdown on every engine state. -/
theorem C5_shutdown_idempotent (s : DiscoState) (m : Msg)
    (hE : pyIn "END" m.action = true) (h1 : s.endit = true) (h2 : s.event = true) :
    pollMsg s m = Except.ok (s, true)
    ∧ shutdown s = s
    ∧ ∀ t : DiscoState, shutdown (shutdown t) = shutdown t := by
  have hs : shutdown s = s := by
    rcases s with ⟨mei, ind, pl, oq, ev, en, q⟩
    obtain rfl : en = true := h1
    obtain rfl : ev = true := h2
    rfl
  refine ⟨?_, hs, fun t => rfl⟩
  simp [pollMsg, hE, hs]

/-- C5 witness: a second END processed after shutdown leaves the
already-shut-down fresh engine unchanged. -/
theorem C5_witness :
    pollMsg (shutdown (freshDisco "A" 2)) ⟨"END", "B", ""⟩ =
      Except.ok (shutdown (freshDisco "A" 2), true)
    ∧ shutdown (shutdown (freshDisco "A" 2)) = shutdown (freshDisco "A" 2) :=
  ⟨(C5_shutdown_idempotent (shutdown (freshDisco "A" 2)) ⟨"END", "B", ""⟩
      (by decide) rfl rfl).1,
   (C5_shutdown_idempotent (shutdown (freshDisco "A" 2)) ⟨"END", "B", ""⟩
      (by decide) rfl rfl).2.1⟩

/-- C9: the END check in poll precedes the self-source suppression
check, so a message with an END action whose source equals the local
identity still triggers shutdown: the end flag is set and the poll
while-loop processes no further batches. -/
theorem C9_end_before_self_check (s : DiscoState) (m : Msg)
    (hE : pyIn "END" m.action = true) (hsrc : m.source = whoami s) :
    pollMsg s m = Except.ok (shutdown s, true)
    ∧ (shutdown s).endit = true
    ∧ ∀ (b : List Msg) (rest : List (List Msg)),
        poll (shutdown s) (b :: rest) = Except.ok (shutdown s, b :: rest) := by
    refine ⟨by simp [pollMsg, hE], rfl, fun b rest => by simp [poll, shutdown]⟩

/-- C9 witness: a fresh engine consuming its own END broadcast shuts
down. -/
theorem C9_witness :
    pollMsg (freshDisco "A" 2) ⟨"END", "A", ""⟩ =
      Except.ok (shutdown (freshDisco "A" 2), true)
    ∧ (shutdown (freshDisco "A" 2)).endit = true :=
  ⟨(C9_end_before_self_check (freshDisco "A" 2) ⟨"END", "A", ""⟩ (by decide) rfl).1,
   (C9_end_before_self_check (freshDisco "A" 2) ⟨"END", "A", ""⟩ (by decide) rfl).2.1⟩

/-- C10: for every non-empty broker b and non-empty topics, the stream
URIs computed at construction are exactly "kafka://" ++ b ++ "/" ++
topic: both arms of each scheme-detection conditional build the same
string, so a broker already carrying the kafka:// scheme yields a
doubled prefix. -/
theorem C10_stream_uri (b t1 t2 : String) (hb : b ≠ "") (h1 : t1 ≠ "") (h2 : t2 ≠ "") :
    discoInitUris (some b) (some t1) (some t2) =
      Except.ok ⟨some ("kafka://" ++ b ++ "/" ++ t1), some ("kafka://" ++ b ++ "/" ++ t2)⟩ := by
  have hb' : (b == "") = false := beq_eq_false_iff_ne.mpr hb
  have h1' : (t1 == "") = false := beq_eq_false_iff_ne.mpr h1
  have h2' : (t2 == "") = false := beq_eq_false_iff_ne.mpr h2
  simp [discoInitUris, pyTruthy, hb', h1', h2']

/-- C10 witness: a broker that already carries the scheme gets a doubled
kafka:// prefix. -/
theorem C10_witness :
    discoInitUris (some "kafka://h") (some "t") (some "u") =
      Except.ok ⟨some "kafka://kafka://h/t", some "kafka://kafka://h/u"⟩ :=
  C10_stream_uri "kafka://h" "t" "u" (by decide) (by decide) (by decide)

/-- C8 counterexample: the empty string is a supplied broker argument,
yet construction raises MissingArgumentError, because the broker check
is Python truthiness, not presence. -/
theorem C8_counterexample :
    discoInitUris (some "") (some "topic") (some "topic") =
      Except.error InitErr.missingArgument := by decide

/-- C8 amended: constructing with no broker — or with an empty broker
string — raises MissingArgumentError before any stream handling, while
any non-empty broker string does not raise it. -/
theorem C8_broker_required (rt wt : Option String) (b : String) (hb : b ≠ "") :
    discoInitUris none rt wt = Except.error InitErr.missingArgument
    ∧ discoInitUris (some "") rt wt = Except.error InitErr.missingArgument
    ∧ discoInitUris (some b) rt wt ≠ Except.error InitErr.missingArgument := by
  have hb' : (b == "") = false := beq_eq_false_iff_ne.mpr hb
  refine ⟨rfl, rfl, ?_⟩
  simp [discoInitUris, pyTruthy, hb']

/-- C8 witness: a concrete non-empty broker constructs without the
configuration error; a missing or empty broker raises it. -/
theorem C8_witness :
    discoInitUris none (some "r") (some "w") = Except.error InitErr.missingArgument
    ∧ discoInitUris (some "") (some "r") (some "w") = Except.error InitErr.missingArgument
    ∧ discoInitUris (some "host") (some "r") (some "w") ≠ Except.error InitErr.missingArgument :=
  C8_broker_required (some "r") (some "w") "host" (by decide)

lemma deref_init : deref PeerList.init 0 = ∅ := rfl

/- One poll step never stores the local identity in the peer set, as
long as the message is not a REPLY whose reply field is the local
identity with a foreign source; the local identity itself is never
modified. -/
lemma pollMsg_inv (s : DiscoState) (m : Msg)
    (hnm : m.reply ≠ s.me ∨ m.source = s.me)
    (h0 : s.me ∉ deref s.peerlist 0) :
    ∀ p : DiscoState × Bool, pollMsg s m = Except.ok p →
      p.1.me = s.me ∧ s.me ∉ deref p.1.peerlist 0 := by
  intro p hp
  by_cases h1 : pyIn "END" m.action = true
  · simp only [pollMsg, h1, if_pos, if_true] at hp
    simp only [Except.ok.injEq] at hp
    subst hp
    exact ⟨rfl, h0⟩
  · by_cases h2 : (s.me == m.source) = true
    · simp only [pollMsg, h1, h2, if_true, if_false, Bool.false_eq_true] at hp
      simp only [Except.ok.injEq] at hp
      subst hp
      exact ⟨rfl, h0⟩
    · by_cases h3 : pyIn "DISCO" m.action = true
      · simp only [pollMsg, h1, h2, h3, if_true, if_false, Bool.false_eq_true] at hp
        simp only [Except.ok.injEq] at hp
        subst hp
        refine ⟨?_, ?_⟩
        · simp [discoReply, produce_me]
        · simpa [discoReply, produce_peerlist] using h0
      · by_cases h4 : pyIn "REPLY" m.action = true
        · have hrepl : m.reply ≠ s.me := by
            rcases hnm with h | h
            · exact h
            · exact absurd (beq_iff_eq.mpr h.symm) h2
          have hmem : s.me ∉ deref (addPeer m.reply s.peerlist) 0 := by
            rw [deref_addPeer_zero]
            simp only [Finset.mem_insert, not_or]
            exact ⟨fun h => hrepl h.symm, h0⟩
          simp only [pollMsg, h1, h2, h3, h4, if_true, if_false, Bool.false_eq_true] at hp
          by_cases h5 : MIN_PEERS ≤ (addPeer m.reply s.peerlist)._length
          · rw [if_pos h5] at hp
            simp only [Except.ok.injEq] at hp
            subst hp
            refine ⟨by simp [endDisco, produce_me], ?_⟩
            simpa [endDisco, produce_peerlist] using hmem
          · rw [if_neg h5] at hp
            simp only [Except.ok.injEq] at hp
            subst hp
            exact ⟨rfl, hmem⟩
        · simp [pollMsg, h1, h2, h3, h4] at hp

lemma pollMsgs_inv (msgs : List Msg) :
    ∀ (s : DiscoState),
      (∀ m ∈ msgs, m.reply ≠ s.me ∨ m.source = s.me) →
      s.me ∉ deref s.peerlist 0 →
      ∀ p : DiscoState × List Msg, pollMsgs s msgs = Except.ok p →
        p.1.me = s.me ∧ s.me ∉ deref p.1.peerlist 0 := by
  induction msgs with
  | nil =>
    intro s hall h0 p hp
    simp only [pollMsgs, Except.ok.injEq] at hp
    subst hp
    exact ⟨rfl, h0⟩
  | cons m rest ih =>
    intro s hall h0 p hp
    rcases hres : pollMsg s m with e | ⟨s1, brk⟩
    · rw [pollMsgs, hres] at hp
      cases hp
    · have hstep := pollMsg_inv s m (hall m (by simp)) h0 (s1, brk) hres
      rw [pollMsgs, hres] at hp
      cases brk with
      | true =>
        simp only [Except.ok.injEq] at hp
        subst hp
        exact hstep
      | false =>
        have hall1 : ∀ m2 ∈ rest, m2.reply ≠ s1.me ∨ m2.source = s1.me := by
          intro m2 hm2
          rw [hstep.1]
          exact hall m2 (by simp [hm2])
        have h01 : s1.me ∉ deref s1.peerlist 0 := by
          rw [hstep.1]
          exact hstep.2
        have hrec := ih s1 hall1 h01 p hp
        exact ⟨hrec.1.trans hstep.1, by rw [← hstep.1]; exact hstep.1 ▸ hrec.2⟩

lemma poll_inv (batches : List (List Msg)) :
    ∀ (s : DiscoState),
      (∀ b ∈ batches, ∀ m ∈ b, m.reply ≠ s.me ∨ m.source = s.me) →
      s.me ∉ deref s.peerlist 0 →
      ∀ p : DiscoState × List (List Msg), poll s batches = Except.ok p →
        p.1.me = s.me ∧ s.me ∉ deref p.1.peerlist 0 := by
  induction batches with
  | nil =>
    intro s hall h0 p hp
    simp only [poll, Except.ok.injEq] at hp
    subst hp
    exact ⟨rfl, h0⟩
  | cons b rest ih =>
    intro s hall h0 p hp
    rw [poll] at hp
    by_cases hend : s.endit = true
    · rw [if_pos hend] at hp
      simp only [Except.ok.injEq] at hp
      subst hp
      exact ⟨rfl, h0⟩
    · rw [if_neg hend] at hp
      rcases hres : pollMsgs s b with e | ⟨s1, leftover⟩
      · rw [hres] at hp
        cases hp
      · have hstep := pollMsgs_inv b s (fun m hm => hall b (by simp) m hm) h0 (s1, leftover) hres
        rw [hres] at hp
        cases leftover with
        | nil =>
          have hall1 : ∀ b2 ∈ rest, ∀ m ∈ b2, m.reply ≠ s1.me ∨ m.source = s1.me := by
            intro b2 hb2 m hm
            rw [hstep.1]
            exact hall b2 (by simp [hb2]) m hm
          have h01 : s1.me ∉ deref s1.peerlist 0 := by
            rw [hstep.1]
            exact hstep.2
          have hrec := ih s1 hall1 h01 p hp
          exact ⟨hrec.1.trans hstep.1, hstep.1 ▸ hrec.2⟩
        | cons l ls =>
          simp only [Except.ok.injEq] at hp
          subst hp
          exact hstep

/-- C1 amended: with local identity I = whoami(), processing a REPLY or
DISCO message whose source equals I leaves the whole engine state
(PeerList included) unchanged, and over any run of the poll loop in
which no REPLY message carries reply = I together with source ≠ I, the
PeerList never contains I. (The unamended claim fails because poll adds
the reply field of any foreign-source REPLY, so a spoofed REPLY with
reply = I does insert I.) -/
theorem C1_no_self_in_peerlist (s : DiscoState) (batches : List (List Msg))
    (s2 : DiscoState) (rem : List (List Msg))
    (h0 : whoami s ∉ get_peerlist s)
    (hall : ∀ b ∈ batches, ∀ m ∈ b, m.reply ≠ whoami s ∨ m.source = whoami s)
    (hrun : poll s batches = Except.ok (s2, rem)) :
    (whoami s2 = whoami s ∧ whoami s2 ∉ get_peerlist s2)
    ∧ ∀ m : Msg, (m.action = "REPLY" ∨ m.action = "DISCO") → m.source = whoami s →
        pollMsg s m = Except.ok (s, false) := by
  have hmain := poll_inv batches s hall h0 (s2, rem) hrun
  refine ⟨⟨hmain.1, ?_⟩, ?_⟩
  · show s2.me ∉ get_peerlist s2
    rw [get_peerlist, hmain.1]
    exact hmain.2
  · intro m hact hsrc
    have hE : pyIn "END" m.action = false := by
      rcases hact with h | h <;> rw [h] <;> decide
    have hsrc' : (s.me == m.source) = true := beq_iff_eq.mpr hsrc.symm
    simp [pollMsg, hE, hsrc']

/-- C1 witness: a fresh engine whose single buffered message is a REPLY
from itself ends the run with its own identity still absent from the
PeerList. -/
theorem C1_witness :
    whoami (freshDisco "A" 2) = whoami (freshDisco "A" 2)
    ∧ whoami (freshDisco "A" 2) ∉ get_peerlist (freshDisco "A" 2) :=
  (C1_no_self_in_peerlist (freshDisco "A" 2) [[⟨"REPLY", "A", "B"⟩]]
    (freshDisco "A" 2) [] (by decide) (by decide) (by decide)).1

/-- C1 counterexample: a REPLY whose reply field equals the local
identity "A" but whose source is the foreign peer "B" passes the
self-source check and inserts "A" into the PeerList, so the claimed
unconditional invariant fails. -/
theorem C1_counterexample :
    (stOf (pollMsgs (freshDisco "A" 2) [⟨"REPLY", "B", "A"⟩])).map
      (fun t => decide (whoami t ∈ get_peerlist t)) = some true := by decide

lemma addPeer_init_length (b : String) : (addPeer b PeerList.init)._length = 1 := by
  rw [addPeer_length, deref_init]
  simp

lemma addPeer_two_length (b c : String) (hbc : b ≠ c) :
    (addPeer c (addPeer b PeerList.init))._length = 2 := by
  rw [addPeer_length, deref_addPeer_zero, deref_init]
  rw [Finset.card_insert_of_not_mem (by simp [Ne.symm hbc])]
  simp

/- A single foreign REPLY processed by a fresh engine registers the
peer and, being below MIN_PEERS, emits nothing. -/
lemma one_reply_run (me b : String) (q : Nat) (hb : b ≠ me) :
    poll (freshDisco me q) [[⟨"REPLY", b, b⟩]] =
      Except.ok ({ freshDisco me q with peerlist := addPeer b PeerList.init }, []) := by
  have hb' : (me == b) = false := beq_eq_false_iff_ne.mpr (Ne.symm hb)
  have hE : pyIn "END" "REPLY" = false := by decide
  have hD : pyIn "DISCO" "REPLY" = false := by decide
  have hR : pyIn "REPLY" "REPLY" = true := by decide
  simp [poll, pollMsgs, pollMsg, freshDisco, hb', hE, hD, hR,
    addPeer_init_length, MIN_PEERS]

/- Two foreign REPLYs from distinct peers: the second one reaches
MIN_PEERS = 2, so end() runs and enqueues the END message, but the
end flag stays false. -/
lemma two_replies_run (me b c : String) (q : Nat) (hb : b ≠ me) (hc : c ≠ me)
    (hbc : b ≠ c) :
    poll (freshDisco me q) [[⟨"REPLY", b, b⟩], [⟨"REPLY", c, c⟩]] =
      Except.ok ({ freshDisco me q with
          peerlist := addPeer c (addPeer b PeerList.init),
          out_queue := [endMsgJson me] }, []) := by
  have hb' : (me == b) = false := beq_eq_false_iff_ne.mpr (Ne.symm hb)
  have hc' : (me == c) = false := beq_eq_false_iff_ne.mpr (Ne.symm hc)
  have hE : pyIn "END" "REPLY" = false := by decide
  have hD : pyIn "DISCO" "REPLY" = false := by decide
  have hR : pyIn "REPLY" "REPLY" = true := by decide
  simp [poll, pollMsgs, pollMsg, freshDisco, hb', hc', hE, hD, hR,
    addPeer_init_length, addPeer_two_length b c hbc, MIN_PEERS,
    endDisco, produce]

/-- C2 amended: with quorum threshold 2, the REPLY that raises the
PeerList to 2 distinct peers — and not the first one — makes the engine
call end(), which enqueues an END message on the outbound queue; end()
does not set the local end flag, so the poll loop does not halt at that
point and halts only when an END message is later consumed. -/
theorem C2_quorum_broadcast (me b c : String) (hb : b ≠ me) (hc : c ≠ me)
    (hbc : b ≠ c) :
    (stOfRun (poll (freshDisco me 2) [[⟨"REPLY", b, b⟩]])).map
        (fun t => (t.out_queue, t.endit, t.peerlist._length)) = some ([], false, 1)
    ∧ (stOfRun (poll (freshDisco me 2) [[⟨"REPLY", b, b⟩], [⟨"REPLY", c, c⟩]])).map
        (fun t => (t.out_queue, t.endit, t.peerlist._length)) =
          some ([endMsgJson me], false, 2) := by
  constructor
  · rw [one_reply_run me b 2 hb]
    simp [stOfRun, freshDisco, addPeer_init_length]
  · rw [two_replies_run me b c 2 hb hc hbc]
    simp [stOfRun, freshDisco, addPeer_two_length b c hbc]

/-- C2 witness: the concrete two-peer scenario with identities A, B, C. -/
theorem C2_witness :
    (stOfRun (poll (freshDisco "A" 2) [[⟨"REPLY", "B", "B"⟩]])).map
        (fun t => (t.out_queue, t.endit, t.peerlist._length)) = some ([], false, 1)
    ∧ (stOfRun (poll (freshDisco "A" 2) [[⟨"REPLY", "B", "B"⟩], [⟨"REPLY", "C", "C"⟩]])).map
        (fun t => (t.out_queue, t.endit, t.peerlist._length)) =
          some ([endMsgJson "A"], false, 2) :=
  C2_quorum_broadcast "A" "B" "C" (by decide) (by decide) (by decide)

/-- C2 counterexample: after the second distinct REPLY is processed the
poll loop has not halted — the end flag is still false and a DISCO
arriving in a later batch is still processed (a REPLY is enqueued after
the END), contradicting the claimed halt with no further message
processing. -/
theorem C2_counterexample :
    (stOfRun (poll (freshDisco "A" 2)
        [[⟨"REPLY", "B", "B"⟩], [⟨"REPLY", "C", "C"⟩], [⟨"DISCO", "D", "D"⟩]])).map
      (fun t => (t.out_queue, t.endit)) =
        some ([endMsgJson "A", replyMsgJson "A"], false) := by decide

/-- C7 counterexample: an engine constructed with a caller-supplied
threshold value of 3 still broadcasts END as soon as the PeerList
reaches 2 peers, because poll compares against the module constant
MIN_PEERS, so the claimed caller-parameterised quorum fails at q = 3. -/
theorem C7_counterexample :
    (freshDisco "A" 3).quorum_threshold = 3
    ∧ (stOfRun (poll (freshDisco "A" 3) [[⟨"REPLY", "B", "B"⟩], [⟨"REPLY", "C", "C"⟩]])).map
        (fun t => (t.out_queue, t.peerlist._length)) = some ([endMsgJson "A"], 2) :=
  ⟨rfl, by decide⟩

/-- C7 amended: the quorum threshold is the module-level constant
MIN_PEERS = 2, fixed before construction and not read from any
construction parameter: whatever threshold-like value q a caller stores
at construction, poll broadcasts END exactly when the PeerList size
first reaches 2. -/
theorem C7_min_peers_constant (me b c : String) (q : Nat) (hb : b ≠ me)
    (hc : c ≠ me) (hbc : b ≠ c) :
    MIN_PEERS = 2
    ∧ (stOfRun (poll (freshDisco me q) [[⟨"REPLY", b, b⟩], [⟨"REPLY", c, c⟩]])).map
        (fun t => (t.out_queue, t.peerlist._length)) = some ([endMsgJson me], 2) := by
  refine ⟨rfl, ?_⟩
  rw [two_replies_run me b c q hb hc hbc]
  simp [stOfRun, freshDisco, addPeer_two_length b c hbc]

/-- C7 witness: identities A, B, C with a stored threshold value of 7. -/
theorem C7_witness :
    MIN_PEERS = 2
    ∧ (stOfRun (poll (freshDisco "A" 7) [[⟨"REPLY", "B", "B"⟩], [⟨"REPLY", "C", "C"⟩]])).map
        (fun t => (t.out_queue, t.peerlist._length)) = some ([endMsgJson "A"], 2) :=
  C7_min_peers_constant "A" "B" "C" 7 (by decide) (by decide) (by decide)

lemma heap_len_addPeer (p : String) (pl : PeerList) :
    (addPeer p pl).heap.length = pl.heap.length + 1 := by
  simp [addPeer]

lemma heap_len_removePeer (p : String) (pl : PeerList) :
    (removePeer p pl).heap.length = pl.heap.length + 1 := by
  simp [removePeer]

/- Objects other than the live set (the deep copies already handed out)
are never written again by add_peer. -/
lemma deref_addPeer_stable (p : String) (pl : PeerList) (r : Nat)
    (hr0 : 0 < r) (hrl : r < pl.heap.length) :
    deref (addPeer p pl) r = deref pl r := by
  unfold deref addPeer
  simp only [List.getD_eq_getElem?_getD]
  rw [List.getElem?_set_ne (Nat.ne_of_lt hr0)]
  rw [List.getElem?_append_left hrl]

lemma deref_removePeer_stable (p : String) (pl : PeerList) (r : Nat)
    (hr0 : 0 < r) (hrl : r < pl.heap.length) :
    deref (removePeer p pl) r = deref pl r := by
  unfold deref removePeer
  simp only [List.getD_eq_getElem?_getD]
  rw [List.getElem?_set_ne (Nat.ne_of_lt hr0)]
  rw [List.getElem?_append_left hrl]

/- The deep copy allocated by add_peer holds the pre-mutation set. -/
lemma deref_addPeer_copy (p : String) (pl : PeerList) (h : 0 < pl.heap.length) :
    deref (addPeer p pl) pl.heap.length = deref pl 0 := by
  unfold deref addPeer
  simp only [List.getD_eq_getElem?_getD]
  rw [List.getElem?_set_ne (Nat.ne_of_lt h)]
  rw [List.getElem?_append_right (Nat.le_refl _)]
  simp [deref]

lemma heap_pos_runOps (ops : List PLOp) :
    ∀ pl : PeerList, 0 < pl.heap.length → 0 < (runOps ops pl).heap.length := by
  induction ops with
  | nil => intro pl h; exact h
  | cons op rest ih =>
    intro pl h
    apply ih
    cases op with
    | add p => simp [applyOp, heap_len_addPeer]
    | remove p => simp [applyOp, heap_len_removePeer]
    | register cb => exact h

lemma length_card_runOps (ops : List PLOp) :
    ∀ pl : PeerList, pl._length = (deref pl 0).card →
      (runOps ops pl)._length = (deref (runOps ops pl) 0).card := by
  induction ops with
  | nil => intro pl h; exact h
  | cons op rest ih =>
    intro pl h
    apply ih
    cases op with
    | add p =>
      simp only [applyOp]
      rw [addPeer_length, deref_addPeer_zero]
    | remove p =>
      simp only [applyOp]
      rw [removePeer_length, deref_removePeer_zero]
    | register cb => exact h

lemma reachedPL_heap_pos (ops : List PLOp) : 0 < (reachedPL ops).heap.length :=
  heap_pos_runOps ops PeerList.init (by decide)

lemma reachedPL_length_card (ops : List PLOp) :
    (reachedPL ops)._length = (deref (reachedPL ops) 0).card :=
  length_card_runOps ops PeerList.init rfl

/-- C6 amended: over any sequence of add/remove/register calls starting
from an empty PeerList, size() always equals the cardinality of the
live peer set, and every mutating call notifies every registered
subscriber exactly once, in registration order, handing it the freshly
allocated deep copy of the pre-mutation set (which is accurate and is
never written by later mutations) together with the live set object
itself (reference 0) as the after-state — the after-snapshot is not a
copy; it aliases the live internal set, which is what the
counterexample exhibits. -/
theorem C6_peerlist_contract (ops : List PLOp) (p : String) (r : Nat)
    (hr0 : 0 < r) (hrl : r < (reachedPL ops).heap.length) :
    (reachedPL ops)._length = (deref (reachedPL ops) 0).card
    ∧ (addPeer p (reachedPL ops)).log =
        (reachedPL ops).log ++
          (reachedPL ops)._callbacks.map (fun cb => (cb, (reachedPL ops).heap.length, 0))
    ∧ (removePeer p (reachedPL ops)).log =
        (reachedPL ops).log ++
          (reachedPL ops)._callbacks.map (fun cb => (cb, (reachedPL ops).heap.length, 0))
    ∧ deref (addPeer p (reachedPL ops)) ((reachedPL ops).heap.length) =
        deref (reachedPL ops) 0
    ∧ deref (addPeer p (reachedPL ops)) r = deref (reachedPL ops) r
    ∧ deref (removePeer p (reachedPL ops)) r = deref (reachedPL ops) r :=
  ⟨reachedPL_length_card ops, rfl, rfl,
   deref_addPeer_copy p (reachedPL ops) (reachedPL_heap_pos ops),
   deref_addPeer_stable p (reachedPL ops) r hr0 hrl,
   deref_removePeer_stable p (reachedPL ops) r hr0 hrl⟩

/-- C6 witness: after registering one subscriber and adding one peer,
size equals the live cardinality. -/
theorem C6_witness :
    (reachedPL [PLOp.register 0, PLOp.add "a"])._length =
      (deref (reachedPL [PLOp.register 0, PLOp.add "a"]) 0).card :=
  (C6_peerlist_contract [PLOp.register 0, PLOp.add "a"] "b" 1 (by decide) (by decide)).1

/-- C6 counterexample: with one registered subscriber, the first
add_peer notifies it with new-state reference 0 — the live _state
object itself, not a copy. After a second add_peer the value at
reference 0 is the two-element set, no longer the one-element set that
was current when the notification was delivered, so the after-snapshot
handed to the subscriber aliases the PeerList's live internal set. -/
theorem C6_counterexample :
    (reachedPL [PLOp.register 0, PLOp.add "a"]).log = [(0, 1, 0)]
    ∧ deref (reachedPL [PLOp.register 0, PLOp.add "a"]) 0 = {"a"}
    ∧ (reachedPL [PLOp.register 0, PLOp.add "a", PLOp.add "b"]).log =
        [(0, 1, 0), (0, 2, 0)]
    ∧ deref (reachedPL [PLOp.register 0, PLOp.add "a", PLOp.add "b"]) 0 = {"a", "b"}
    ∧ ({"a", "b"} : Finset String) ≠ {"a"} := by decide

/-- C4 counterexample: the action "SUSPEND" is none of DISCO, REPLY,
END, yet processing it does not raise UnknownActionError — poll's
membership tests are substring tests and "SUSPEND" contains "END", so
the message triggers shutdown instead. -/
theorem C4_counterexample :
    pollMsgs (freshDisco "A" 2) [⟨"SUSPEND", "B", ""⟩] =
      Except.ok (shutdown (freshDisco "A" 2), []) := by decide

/-- C4 amended: for every message whose action contains none of the
substrings "END", "DISCO", "REPLY" and whose source differs from the
local identity, processing it raises UnknownActionError; the error
propagates out of the drain and out of the poll loop, and no further
buffered message or batch is processed. -/
theorem C4_unknown_action (s : DiscoState) (m : Msg) (rest : List Msg)
    (hE : pyIn "END" m.action = false) (hD : pyIn "DISCO" m.action = false)
    (hR : pyIn "REPLY" m.action = false) (hs : m.source ≠ whoami s)
    (hend : s.endit = false) :
    pollMsgs s (m :: rest) = Except.error DiscoErr.unknownAction
    ∧ ∀ batches : List (List Msg),
        poll s ((m :: rest) :: batches) = Except.error DiscoErr.unknownAction := by
  have hs' : (s.me == m.source) = false := beq_eq_false_iff_ne.mpr (Ne.symm hs)
  have hmsgs : pollMsgs s (m :: rest) = Except.error DiscoErr.unknownAction := by
    rw [pollMsgs]
    have : pollMsg s m = Except.error DiscoErr.unknownAction := by
      simp [pollMsg, hE, hD, hR, hs']
    rw [this]
  refine ⟨hmsgs, fun batches => ?_⟩
  rw [poll, if_neg (by simp [hend]), hmsgs]

/-- C4 witness: a FOO-action message from a foreign source aborts the
drain even with a valid REPLY buffered behind it and a later batch
pending. -/
theorem C4_witness :
    pollMsgs (freshDisco "A" 2) [⟨"FOO", "B", ""⟩, ⟨"REPLY", "C", "C"⟩] =
      Except.error DiscoErr.unknownAction
    ∧ poll (freshDisco "A" 2) [[⟨"FOO", "B", ""⟩, ⟨"REPLY", "C", "C"⟩], [⟨"DISCO", "D", "D"⟩]] =
        Except.error DiscoErr.unknownAction :=
  ⟨(C4_unknown_action (freshDisco "A" 2) ⟨"FOO", "B", ""⟩ [⟨"REPLY", "C", "C"⟩]
      (by decide) (by decide) (by decide) (by decide) rfl).1,
   (C4_unknown_action (freshDisco "A" 2) ⟨"FOO", "B", ""⟩ [⟨"REPLY", "C", "C"⟩]
      (by decide) (by decide) (by decide) (by decide) rfl).2 [[⟨"DISCO", "D", "D"⟩]]⟩
